import Mathlib

set_option linter.unnecessarySeqFocus false

/-!
Verification of the `bcsat` Boolean-circuit-to-CNF translator
(`src/gate.cc`, `src/bc2cnf.cc`) against its natural-language
specification.  The C++ data model and the routines referenced by the
claims are shallowly embedded as executable Lean definitions; theorems
about the claims follow the definitions.
-/

namespace BCSat

/-- Gate types, in the order of the `Gate::Type` enumeration
(the order of `Gate::typeNames` in `gate.cc`). -/
inductive GType where
  | tEQUIV | tOR | tAND | tEVEN | tODD | tITE | tNOT | tTRUE | tFALSE | tVAR
  | tTHRESHOLD | tATLEAST | tREF | tUNDEF | tDELETED
deriving DecidableEq, Repr, Fintype

open GType

/-- Numeric code of a gate type, following the enumeration order used by
`type < other->type` comparisons in `Gate::comp`. -/
def GType.code : GType → Nat
  | tEQUIV => 0 | tOR => 1 | tAND => 2 | tEVEN => 3 | tODD => 4
  | tITE => 5 | tNOT => 6 | tTRUE => 7 | tFALSE => 8 | tVAR => 9
  | tTHRESHOLD => 10 | tATLEAST => 11 | tREF => 12 | tUNDEF => 13
  | tDELETED => 14

/-! ### The CNF emission view of a numbered gate

`Gate::cnf_get_clauses` and `Gate::cnf_count_clauses` read, for a gate:
its type, its DIMACS variable (the `temp` field after COI numbering),
its `determined`/`value` pair, and for each child its type, its `temp`,
and — when the child is a NOT gate in NOT-less mode — the `temp` of the
child's own single child (the grandchild). -/

/-- A child as seen by the clause emitter: its type, its assigned DIMACS
variable (`temp`), and the variable of its own child (`gtemp`, used only
when this child is a NOT gate in NOT-less mode). -/
structure NChild where
  ctype : GType
  ctemp : Int
  gtemp : Int
deriving DecidableEq, Repr

/-- A numbered gate as seen by the clause emitter. -/
structure NGate where
  type : GType
  temp : Int
  determined : Bool
  value : Bool
  children : List NChild
deriving DecidableEq, Repr

/-- The literal the emitter uses for a child occurrence: in NOT-less mode
a NOT child is encoded as the negative literal over the grandchild's
variable, otherwise the child's own variable is used
(`gate.cc`, the `notless` branches of `Gate::cnf_get_clauses`). -/
def childLit (notless : Bool) (c : NChild) : Int :=
  if notless && c.ctype == tNOT then -c.gtemp else c.ctemp

/-- `Gate::cnf_count_clauses` (gate.cc:3720-3766).  `none` models
`internal_error` / a failing `assert`; `DEBUG_ASSERT` is compiled out. -/
def cnf_count_clauses (g : NGate) (notless : Bool) : Option Nat :=
  match g.type with
  | tFALSE => if g.determined && g.value == false then some 0 else none
  | tTRUE => if g.determined && g.value == true then some 0 else none
  | tVAR => some 0
  | tREF => if notless then none else some 2
  | tNOT => if notless then some 0 else some 2
  | tOR => some (g.children.length + 1)
  | tAND => some (g.children.length + 1)
  | tEQUIV => if g.children.length == 2 then some 4 else none
  | tEVEN => if g.children.length == 2 then some 4 else none
  | tODD => if g.children.length == 2 then some 4 else none
  | tITE => some 4
  | _ => none

/-- `Gate::cnf_get_clauses` (gate.cc:3773-4049), producing the list of
translation clauses of one numbered gate.  Each clause is the list of its
literals in emission order.  `none` models `internal_error`, or the
undefined behaviour of dereferencing a missing child. -/
def cnf_get_clauses (g : NGate) (notless : Bool) :
    Option (List (List Int)) :=
  match g.type with
  | tFALSE => some []
  | tTRUE => some []
  | tVAR => some []
  | tREF =>
    if notless then none
    else match g.children with
      | [c] => some [[-g.temp, c.ctemp], [g.temp, -c.ctemp]]
      | _ => none
  | tNOT =>
    match g.children with
    | [c] =>
      if notless then
        if g.determined || c.ctype == tNOT then none else some []
      else
        some [[-g.temp, -c.ctemp], [g.temp, c.ctemp]]
    | _ => none
  | tOR =>
    some ((-g.temp :: g.children.map (childLit notless)) ::
      g.children.map (fun c => [g.temp, -(childLit notless c)]))
  | tAND =>
    some ((g.temp :: g.children.map (fun c => -(childLit notless c))) ::
      g.children.map (fun c => [-g.temp, childLit notless c]))
  | tEQUIV =>
    match g.children with
    | [c1, c2] =>
      let l1 := childLit notless c1
      let l2 := childLit notless c2
      some [[-g.temp, -l1, l2], [-g.temp, l1, -l2],
            [g.temp, -l1, -l2], [g.temp, l1, l2]]
    | _ => none
  | tEVEN =>
    match g.children with
    | [c1, c2] =>
      let l1 := childLit notless c1
      let l2 := childLit notless c2
      some [[-g.temp, -l1, l2], [-g.temp, l1, -l2],
            [g.temp, -l1, -l2], [g.temp, l1, l2]]
    | _ => none
  | tODD =>
    match g.children with
    | [c1, c2] =>
      let l1 := childLit notless c1
      let l2 := childLit notless c2
      some [[-g.temp, -l1, -l2], [-g.temp, l1, l2],
            [g.temp, -l1, l2], [g.temp, l1, -l2]]
    | _ => none
  | tITE =>
    match g.children with
    | [ci, ct, ce] =>
      let li := childLit notless ci
      let lt := childLit notless ct
      let le := childLit notless ce
      some [[-g.temp, -li, lt], [-g.temp, li, le],
            [g.temp, -li, -lt], [g.temp, li, -le]]
    | _ => none
  | _ => none

/-- The unit clauses the emitter adds for one gate after its translation
clauses: one unit for a determined gate, and one for a surviving
(undetermined) TRUE/FALSE constant (bc2cnf.cc:398-410 and 462-483). -/
def unitClauses (g : NGate) : List (List Int) :=
  if g.determined then [[if g.value then g.temp else -g.temp]]
  else if g.type == tTRUE then [[g.temp]]
  else if g.type == tFALSE then [[-g.temp]]
  else []

/-- The emitter's first (counting) pass (bc2cnf.cc:373-411): gates whose
`temp` is `-1` are skipped; for the others the translation clauses are
generated and counted, plus the unit clauses. -/
def countPass : List NGate → Bool → Option Nat
  | [], _ => some 0
  | g :: gs, nl =>
    if g.temp == -1 then countPass gs nl
    else
      match cnf_get_clauses g nl, countPass gs nl with
      | some cs, some n => some (cs.length + (unitClauses g).length + n)
      | _, _ => none

/-- The emitter's second (writing) pass (bc2cnf.cc:430-484): the clause
lines actually written, in order.  The translation clauses of each gate
are popped from the back of the list, hence written reversed. -/
def writePass : List NGate → Bool → Option (List (List Int))
  | [], _ => some []
  | g :: gs, nl =>
    if g.temp == -1 then writePass gs nl
    else
      match cnf_get_clauses g nl, writePass gs nl with
      | some cs, some rest => some (cs.reverse ++ unitClauses g ++ rest)
      | _, _ => none

/-- The variable-numbering loop (bc2cnf.cc:263-292): gates not in the
cone of influence (`temp = -1`) are skipped; in NOT-less mode a NOT gate
gets `temp := -1` (no DIMACS variable) after asserting that it is
undetermined and its child is not a NOT; every other relevant gate gets
the next positive variable number. -/
def renumber (notless : Bool) : List NGate → Int → Option (List NGate)
  | [], _ => some []
  | g :: gs, n =>
    if g.temp == -1 then
      match renumber notless gs n with
      | some gs' => some (g :: gs')
      | none => none
    else if notless && g.type == tNOT then
      if g.determined || (g.children.head?.map (·.ctype)).getD tUNDEF == tNOT
      then none
      else
        match renumber notless gs n with
        | some gs' => some ({ g with temp := -1 } :: gs')
        | none => none
    else
      match renumber notless gs (n + 1) with
      | some gs' => some ({ g with temp := n + 1 } :: gs')
      | none => none

/-! ### Local rewrite-state view

The simplifier / normalizer fragments referenced by the claims mutate a
gate together with the `determined`/`value` state of its children.  The
view below records exactly the fields those fragments read and write. -/

/-- A child's state as seen by a local rewrite: its type and its
`determined`/`value` pair. -/
structure RChild where
  ctype : GType
  determined : Bool
  value : Bool
deriving DecidableEq, Repr

/-- A gate's state as seen by a local rewrite. -/
structure RGate where
  type : GType
  determined : Bool
  value : Bool
  hasParents : Bool
  hasHandles : Bool
  tmin : Nat
  tmax : Nat
  children : List RChild
deriving DecidableEq, Repr

/-- `Gate::transform_into_constant` (gate.cc:456-472): set the
`determined`/`value` pair if not yet determined (when already determined
the value is asserted equal), switch the type to the corresponding
constant and unlink all children. -/
def transformIntoConstant (g : RGate) (v : Bool) : RGate :=
  let g1 := if g.determined then g
            else { g with determined := true, value := v }
  { g1 with type := if g1.value then tTRUE else tFALSE, children := [] }

/-- The `tFALSE`/`tTRUE` cases of `Gate::simplify` (gate.cc:876-906),
parameterized by the constant's value `cval`.  The `Bool` component is
the return value (`false` signals UNSAT). -/
def simplifyConstCase (cval : Bool) (g : RGate) : Bool × RGate :=
  if g.determined then
    if g.value ≠ cval then (false, g)
    else (true, if ¬g.hasHandles ∧ ¬g.hasParents
                then { g with type := tDELETED } else g)
  else
    let g1 := { g with determined := true, value := cval }
    (true, if ¬g1.hasHandles ∧ ¬g1.hasParents
           then { g1 with type := tDELETED } else g1)

/-- Marks a gate structurally replaced: children unlinked, parents and
handles migrated away, type set to `tDELETED`. -/
def deleteGate (g : RGate) : RGate :=
  { g with type := tDELETED, children := [],
           hasParents := false, hasHandles := false }

/-- The `tREF` case of `Gate::cnf_normalize` (gate.cc:2453-2475): a
determined REF propagates its value to the child (UNSAT on an opposite
already-determined child), then the REF is removed.  Returns the return
value, the gate's state and the child's state. -/
def cnfNormalizeRef (g : RGate) : Option (Bool × RGate × RChild) :=
  match g.children with
  | [c] =>
    if g.determined then
      if c.determined ∧ g.value ≠ c.value then some (false, g, c)
      else some (true, deleteGate g, { c with determined := true, value := g.value })
    else some (true, deleteGate g, c)
  | _ => none

/-- The `tNOT` case of `Gate::cnf_normalize` (gate.cc:2477-2511): a
determined NOT forces the opposite value onto its child and becomes a
constant; an undetermined NOT over a NOT is collapsed to the grandchild
(deleted); otherwise the NOT is kept. -/
def cnfNormalizeNot (g : RGate) : Option (Bool × RGate × RChild) :=
  match g.children with
  | [c] =>
    if g.determined then
      if c.determined ∧ c.value = g.value then some (false, g, c)
      else some (true, transformIntoConstant g g.value,
                 { c with determined := true, value := !g.value })
    else if c.ctype = tNOT then some (true, deleteGate g, c)
    else some (true, g, c)
  | _ => none

/-- The value-merging part of `Gate::share` (gate.cc:3607-3626), for the
case where the hash table returned an `existing` gate different from
`g`: determined values are merged (UNSAT on conflict, before any
mutation) and `g` is deleted, its parents and handles redirected. -/
def shareMerge (g existing : RGate) : Bool × RGate × RGate :=
  if g.determined then
    if existing.determined then
      if g.value ≠ existing.value then (false, g, existing)
      else (true, deleteGate g, existing)
    else (true, deleteGate g,
          { existing with determined := true, value := g.value })
  else (true, deleteGate g, existing)

/-! ### The ATLEAST case of the simplifier (claim C6) -/

/-- The child-removal loop of the `tATLEAST` case of `Gate::simplify`
(gate.cc:2281-2303): determined children are removed, and the bound
`tmin` is decremented (saturating at 0) for every determined-true
child.  Returns the remaining children and the updated bound. -/
def atleastRemoveChildren : List RChild → Nat → List RChild × Nat
  | [], tmin => ([], tmin)
  | c :: cs, tmin =>
    if ¬c.determined then
      let (cs', t') := atleastRemoveChildren cs tmin
      (c :: cs', t')
    else if c.value = false then atleastRemoveChildren cs tmin
    else atleastRemoveChildren cs (tmin - 1)

/-- The `tATLEAST` case of `Gate::simplify` (gate.cc:2274-2359): remove
determined children updating the bound, then collapse to TRUE / FALSE /
AND in the trivial cases; in all other cases (including `tmin = 1` with
several children left) the gate stays an ATLEAST gate. -/
def simplifyAtleast (g : RGate) : Bool × RGate :=
  let (cs', t') := atleastRemoveChildren g.children g.tmin
  let g0 := { g with children := cs', tmin := t' }
  if t' = 0 then
    if g.determined ∧ g.value ≠ true then (false, g0)
    else (true, transformIntoConstant g0 true)
  else if cs'.length < t' then
    if g.determined ∧ g.value ≠ false then (false, g0)
    else (true, transformIntoConstant g0 false)
  else if t' = cs'.length then
    (true, { g0 with type := tAND, tmin := 0, tmax := 0 })
  else (true, g0)

/-! ### The polarity analyzer (claim C7) -/

/-- A child as seen by the polarity analyzer: only its
`determined`/`value` pair is consulted. -/
structure PChild where
  determined : Bool
  value : Bool
deriving DecidableEq, Repr

/-- A gate as seen by `Gate::mir_propagate_polarity`. -/
structure PGate where
  type : GType
  determined : Bool
  value : Bool
  mir_pos : Bool
  mir_neg : Bool
  tmin : Nat
  tmax : Nat
  children : List PChild
deriving DecidableEq, Repr

/-- `Gate::count_child_info` (gate.cc:4762-4778): the numbers of
determined-true, determined-false and undetermined children. -/
def countChildInfo (cs : List PChild) : Nat × Nat × Nat :=
  (cs.countP (fun c => c.determined && c.value),
   cs.countP (fun c => c.determined && !c.value),
   cs.countP (fun c => !c.determined))

/-- `Gate::is_justified` (gate.cc:4785-4924): does the gate's determined
value follow locally from the determined values of its children?
`none` models `internal_error` on an unsupported type. -/
def isJustified (g : PGate) : Option Bool :=
  if ¬g.determined then some false
  else
    let (nt, nf, nu) := countChildInfo g.children
    let n := nt + nf + nu
    match g.type with
    | tFALSE => some true
    | tTRUE => some true
    | tVAR => some true
    | tNOT => some ((g.value && decide (0 < nf)) || (!g.value && decide (0 < nt)))
    | tEQUIV =>
      if g.value then some (decide (n = 1) || decide (nt = n) || decide (nf = n))
      else some (decide (0 < nt) && decide (0 < nf))
    | tOR =>
      if g.value then some (decide (0 < nt)) else some (decide (nf = n))
    | tAND =>
      if g.value then some (decide (nt = n)) else some (decide (0 < nf))
    | tODD =>
      if g.value then some (decide (nt + nf = n) && decide (nt % 2 = 1))
      else some (decide (nt + nf = n) && decide (nt % 2 = 0))
    | tEVEN =>
      if g.value then some (decide (nt + nf = n) && decide (nt % 2 = 0))
      else some (decide (nt + nf = n) && decide (nt % 2 = 1))
    | tITE =>
      match g.children with
      | ci :: ct :: ce :: _ =>
        if g.value then
          some ((ci.determined && ci.value && ct.determined && ct.value) ||
                (ci.determined && !ci.value && ce.determined && ce.value) ||
                (ct.determined && ct.value && ce.determined && ce.value))
        else
          some ((ci.determined && ci.value && ct.determined && !ct.value) ||
                (ci.determined && !ci.value && ce.determined && !ce.value) ||
                (ct.determined && !ct.value && ce.determined && !ce.value))
      | _ => none
    | tTHRESHOLD =>
      if g.value then some (decide (g.tmin ≤ nt) && decide (n - nf ≤ g.tmax))
      else some (decide (g.tmax < nt) || decide (n - nf < g.tmin))
    | tATLEAST =>
      if g.value then some (decide (g.tmin ≤ nt))
      else some (decide (n - nf < g.tmin))
    | _ => none

/-- The recursive calls `Gate::mir_propagate_polarity`
(gate.cc:4934-5067) makes on its children, as pairs of child position
and propagated polarity, in call order.  `none` models
`internal_error` or a missing-child dereference. -/
def mirCalls (g : PGate) (p : Bool) : Option (List (Nat × Bool)) :=
  if g.determined ∧ g.value ≠ p then some []
  else if g.determined ∧ isJustified g = some true then some []
  else if g.determined ∧ isJustified g = none then none
  else if p ∧ g.mir_pos then some []
  else if ¬p ∧ g.mir_neg then some []
  else
    let n := g.children.length
    let (nt, _nf, nu) := countChildInfo g.children
    match g.type with
    | tFALSE => some []
    | tTRUE => some []
    | tVAR => some []
    | tNOT =>
      match g.children with
      | [] => none
      | _ => some [(0, !p)]
    | tOR => some ((List.range n).map (fun i => (i, p)))
    | tAND => some ((List.range n).map (fun i => (i, p)))
    | tEQUIV => some ((List.range n).flatMap (fun i => [(i, p), (i, !p)]))
    | tODD =>
      if nu = 1 then
        let desired := xor p (nt % 2 = 1)
        some ((List.range n).map (fun i => (i, desired)))
      else some ((List.range n).flatMap (fun i => [(i, p), (i, !p)]))
    | tEVEN =>
      if nu = 1 then
        let desired := xor p (nt % 2 = 0)
        some ((List.range n).map (fun i => (i, desired)))
      else some ((List.range n).flatMap (fun i => [(i, p), (i, !p)]))
    | tITE =>
      match g.children with
      | _ :: _ :: _ :: _ => some [(0, p), (0, !p), (1, p), (2, p)]
      | _ => none
    | tTHRESHOLD =>
      if p then
        if g.tmin ≤ nt then some ((List.range n).map (fun i => (i, false)))
        else if nt < g.tmin ∧ n - _nf ≤ g.tmax then
          some ((List.range n).map (fun i => (i, true)))
        else some ((List.range n).flatMap (fun i => [(i, p), (i, !p)]))
      else
        if g.tmin ≤ nt then some ((List.range n).map (fun i => (i, true)))
        else if nt < g.tmin ∧ n - _nf ≤ g.tmax then
          some ((List.range n).map (fun i => (i, false)))
        else some ((List.range n).flatMap (fun i => [(i, p), (i, !p)]))
    | tATLEAST => some ((List.range n).map (fun i => (i, p)))
    | _ => none

/-! ### Structural comparison and hashing (claims C8, C10) -/

/-- A gate as seen by `Gate::comp` and `Gate::hash_value`: its type, its
store index, its first name (for VAR), its bounds, and the sequence of
its children's `index` values. -/
structure HGate where
  type : GType
  idx : Nat
  name : Option String
  tmin : Nat
  tmax : Nat
  childIdx : List Nat
deriving DecidableEq, Repr

/-- The child-comparison loop of `Gate::comp` (gate.cc:3555-3576):
lexicographic comparison of the child index sequences, a longer
sequence comparing greater. -/
def compChildren : List Nat → List Nat → Int
  | [], [] => 0
  | _ :: _, [] => 1
  | [], _ :: _ => -1
  | a :: as, b :: bs =>
    if a < b then -1 else if b < a then 1 else compChildren as bs

/-- `Gate::comp` (gate.cc:3493-3577).  The `this == other` pointer test
is modelled as equality of the two gate records (two distinct gate
objects never agree on `idx`, which the store assigns uniquely).
Note the `tVAR` case orders two distinct VAR gates by `idx` and never
consults their names.  `none` models `internal_error`. -/
def comp (a b : HGate) : Option Int :=
  if a = b then some 0
  else if a.type.code < b.type.code then some (-1)
  else if b.type.code < a.type.code then some 1
  else
    match a.type with
    | tFALSE => some 0
    | tTRUE => some 0
    | tVAR => some (if a.idx < b.idx then -1 else 1)
    | tTHRESHOLD =>
      if a.tmin < b.tmin then some (-1)
      else if b.tmin < a.tmin then some 1
      else if a.tmax < b.tmax then some (-1)
      else if b.tmax < a.tmax then some 1
      else some (compChildren a.childIdx b.childIdx)
    | tATLEAST =>
      if a.tmin < b.tmin then some (-1)
      else if b.tmin < a.tmin then some 1
      else some (compChildren a.childIdx b.childIdx)
    | tUNDEF => none
    | tDELETED => none
    | _ => some (compChildren a.childIdx b.childIdx)

/-- The 256-entry random table of `Gate::hash_value` (gate.cc:3344-3409). -/
def rtab : List Nat := [
  0xAEAA35B8, 0x65632E16, 0x155EDBA9, 0x01349B39,
  0x8EB8BD97, 0x8E4C5367, 0x8EA78B35, 0x2B1B4072,
  0xC1163893, 0x269A8642, 0xC79D7F6D, 0x6A32DEA0,
  0xD4D2DA56, 0xD96D4F47, 0x47B5F48A, 0x2587C6BF,
  0x642B71D8, 0x5DBBAF58, 0x5C178169, 0xA16D9279,
  0x75CDA063, 0x291BC48B, 0x01AC2F47, 0x5416DF7C,
  0x45307514, 0xB3E1317B, 0xE1C7A8DE, 0x3ACDAC96,
  0x11B96831, 0x32DE22DD, 0x6A1DA93B, 0x58B62381,
  0x283810E2, 0xBC30E6A6, 0x8EE51705, 0xB06E8DFB,
  0x729AB12A, 0xA9634922, 0x1A6E8525, 0x49DD4E19,
  0xE5DB3D44, 0x8C5B3A02, 0xEBDE2864, 0xA9146D9F,
  0x736D2CB4, 0xF5229F42, 0x712BA846, 0x20631593,
  0x89C02603, 0xD5A5BF6A, 0x823F4E18, 0x5BE5DEFF,
  0x1C4EBBFA, 0x5FAB8490, 0x6E559B0C, 0x1FE528D6,
  0xB3198066, 0x4A965EB5, 0xFE8BB3D5, 0x4D2F6234,
  0x5F125AA4, 0xBCC640FA, 0x4F8BC191, 0xA447E537,
  0xAC474D3C, 0x703BFA2C, 0x617DC0E7, 0xF26299D7,
  0xC90FD835, 0x33B71C7B, 0x6D83E138, 0xCBB1BB14,
  0x029CF5FF, 0x7CBD093D, 0x4C9825EF, 0x845C4D6D,
  0x124349A5, 0x53942D21, 0x800E60DA, 0x2BA6EB7F,
  0xCEBF30D3, 0xEB18D449, 0xE281F724, 0x58B1CB09,
  0xD469A13D, 0x9C7495C3, 0xE53A7810, 0xA866C08E,
  0x832A038B, 0xDDDCA484, 0xD5FE0DDE, 0x0756002B,
  0x2FF51342, 0x60FEC9C8, 0x061A53E3, 0x47B1884E,
  0xDC17E461, 0xA17A6A37, 0x3158E7E2, 0xA40D873B,
  0x45AE2140, 0xC8F36149, 0x63A4EE2D, 0xD7107447,
  0x6F90994F, 0x5006770F, 0xC1F3CA9A, 0x91B317B2,
  0xF61B4406, 0xA8C9EE8F, 0xC6939B75, 0xB28BBC3B,
  0x36BF4AEF, 0x3B12118D, 0x4D536ECF, 0x9CF4B46B,
  0xE8AB1E03, 0x8225A360, 0x7AE4A130, 0xC4EE8B50,
  0x50651797, 0x5BB4C59F, 0xD120EE47, 0x24F3A386,
  0xBE579B45, 0x3A378EFC, 0xC5AB007B, 0x3668942B,
  0x2DBDCC3A, 0x6F37F64C, 0xC24F862A, 0xB6F97FCF,
  0x9E4FA23D, 0x551AE769, 0x46A8A5A6, 0xDC1BCFDD,
  0x8F684CF9, 0x501D811B, 0x84279F80, 0x2614E0AC,
  0x86445276, 0xAEA0CE71, 0x0812250F, 0xB586D18A,
  0xC68D721B, 0x44514E1D, 0x37CDB99A, 0x24731F89,
  0xFA72E589, 0x81E6EBA2, 0x15452965, 0x55523D9D,
  0x2DC47E14, 0x2E7FA107, 0xA7790F23, 0x40EBFDBB,
  0x77E7906B, 0x6C1DB960, 0x1A8B9898, 0x65FA0D90,
  0xED28B4D8, 0x34C3ED75, 0x768FD2EC, 0xFAB60BCB,
  0x962C75F4, 0x304F0498, 0x0A41A36B, 0xF7DE2A4A,
  0xF4770FE2, 0x73C93BBB, 0xD21C82C5, 0x6C387447,
  0x8CDB4CB9, 0x2CC243E8, 0x41859E3D, 0xB667B9CB,
  0x89681E8A, 0x61A0526C, 0x883EDDDC, 0x539DE9A4,
  0xC29E1DEC, 0x97C71EC5, 0x4A560A66, 0xBD7ECACF,
  0x576AE998, 0x31CE5616, 0x97172A6C, 0x83D047C4,
  0x274EA9A8, 0xEB31A9DA, 0x327209B5, 0x14D1F2CB,
  0x00FE1D96, 0x817DBE08, 0xD3E55AED, 0xF2D30AFC,
  0xFB072660, 0x866687D6, 0x92552EB9, 0xEA8219CD,
  0xF7927269, 0xF1948483, 0x694C1DF5, 0xB7D8B7BF,
  0xFFBC5D2F, 0x2E88B849, 0x883FD32B, 0xA0331192,
  0x8CB244DF, 0x41FAF895, 0x16902220, 0x97FB512A,
  0x2BEA3CC4, 0xAF9CAE61, 0x41ACD0D5, 0xFD2F28FF,
  0xE780ADFA, 0xB3A3A76E, 0x7112AD87, 0x7C3D6058,
  0x69E64FFF, 0xE5F8617C, 0x8580727C, 0x41F54F04,
  0xD72BE498, 0x653D1795, 0x1275A327, 0x14B499D4,
  0x4E34D553, 0x4687AA39, 0x68B64292, 0x5C18ABC3,
  0x41EABFCC, 0x92A85616, 0x82684CF8, 0x5B9F8A4E,
  0x35382FFE, 0xFB936318, 0x52C08E15, 0x80918B2E,
  0x199EDEE0, 0xA9470163, 0xEC44ACDD, 0x612D6735,
  0x8F88EA7D, 0x759F5EA4, 0xE5CC7240, 0x68CFEB8B,
  0x04725601, 0x0C22C23E, 0x5BC97174, 0x89965841,
  0x5D939479, 0x690F338A, 0x3C2D4380, 0xDAE97F2B]

/-- Table lookup `rtab[i]`. -/
def rt (i : Nat) : Nat := rtab.getD i 0

/-- One-bit left rotation of a 32-bit word:
`h = (h << 1) | ((h & mask) >> shift_amount)` with
`shift_amount = 31`, in `unsigned int` arithmetic. -/
def rotl1 (h : Nat) : Nat :=
  ((h <<< 1) % 2 ^ 32) ||| ((h &&& (1 <<< 31)) >>> 31)

/-- One BUZhash step: rotate, then xor a table entry selected by the low
byte of `v`. -/
def buzStep (h v : Nat) : Nat := rotl1 h ^^^ rt (v % 256)

/-- The per-child loop of `Gate::hash_value` (gate.cc:3480-3487): fold
the bytes of a child `index` into the hash, low byte first, stopping
when the remaining value is zero. -/
def buzInt (h v : Nat) : Nat :=
  if hv : v = 0 then h else buzInt (buzStep h v) (v / 256)
termination_by v
decreasing_by exact Nat.div_lt_self (Nat.pos_of_ne_zero hv) (by norm_num)

/-- Folding the whole child index sequence into the hash. -/
def buzChildren (h0 : Nat) (idxs : List Nat) : Nat := idxs.foldl buzInt h0

/-- The name loop of the `tVAR` case of `Gate::hash_value`
(gate.cc:3431-3446). -/
def hashName (s : String) : Nat :=
  s.data.foldl (fun h c => buzStep h c.toNat) 0x2A2C0FCF

/-- `Gate::hash_value` (gate.cc:3417-3489), in 32-bit `unsigned int`
arithmetic.  A VAR gate hashes only its first name (and returns before
the child loop); THRESHOLD and ATLEAST mix their bounds into the seed;
every other supported type has a fixed seed mixed with the child index
sequence.  `none` models `internal_error`. -/
def hash_value (g : HGate) : Option Nat :=
  match g.type with
  | tTRUE => some (buzChildren 0xCA88E3DD g.childIdx)
  | tFALSE => some (buzChildren 0xB0642F28 g.childIdx)
  | tVAR => some (match g.name with
                  | some s => hashName s
                  | none => 0x2A2C0FCF)
  | tEQUIV => some (buzChildren 0xA92BF860 g.childIdx)
  | tOR => some (buzChildren 0x122850E1 g.childIdx)
  | tAND => some (buzChildren 0x2390CABB g.childIdx)
  | tTHRESHOLD =>
    some (buzChildren (((0xF6212680 ^^^ rt (g.tmin % 256)) * rt (g.tmax % 255)) % 2 ^ 32)
      g.childIdx)
  | tNOT => some (buzChildren 0x737C65A6 g.childIdx)
  | tREF => some (buzChildren 0x908B5443 g.childIdx)
  | tEVEN => some (buzChildren 0x98526E2D g.childIdx)
  | tODD => some (buzChildren 0xC9333644 g.childIdx)
  | tITE => some (buzChildren 0xB3F245DE g.childIdx)
  | tATLEAST =>
    some (buzChildren ((0xA9378F6A * rt (g.tmin % 256)) % 2 ^ 32) g.childIdx)
  | _ => none

/-! ### Model reconstruction: the SAT shortcut (claim C4)

For the satisfiable-exit path the circuit is viewed as the store's list
of gates, each gate carrying its sub-DAG (shared subterms duplicated,
which is sound here because every mutation of this path — assigning
undetermined VARs to false and evaluating — is a deterministic function
of the subtree). -/

/-- A gate with its full sub-DAG, as used by `Gate::evaluate`. -/
inductive GateT where
  | node (type : GType) (determined : Bool) (value : Bool)
         (tmin tmax : Nat) (names : List String) (children : List GateT)

def GateT.type : GateT → GType
  | .node ty _ _ _ _ _ _ => ty

def GateT.determined : GateT → Bool
  | .node _ d _ _ _ _ _ => d

def GateT.value : GateT → Bool
  | .node _ _ v _ _ _ _ => v

def GateT.tmin : GateT → Nat
  | .node _ _ _ l _ _ _ => l

def GateT.tmax : GateT → Nat
  | .node _ _ _ _ u _ _ => u

def GateT.names : GateT → List String
  | .node _ _ _ _ _ ns _ => ns

def GateT.children : GateT → List GateT
  | .node _ _ _ _ _ _ cs => cs

mutual

/-- The loop of bc2cnf.cc:508-516 applied through the store: every
undetermined VAR gate becomes determined with value false. -/
def assignVarsFalse : GateT → GateT
  | .node ty d v l u ns cs =>
    if ty = tVAR ∧ d = false then .node ty true false l u ns (assignVarsFalseList cs)
    else .node ty d v l u ns (assignVarsFalseList cs)

/-- `assignVarsFalse` over a child list. -/
def assignVarsFalseList : List GateT → List GateT
  | [] => []
  | c :: cs => assignVarsFalse c :: assignVarsFalseList cs

end

/-- The value `Gate::evaluate` (gate.cc:5096-5148) computes from the
counts of true/false children, per gate type.  `none` models an
undetermined VAR (`return false`) or `internal_error`. -/
def evalValue (ty : GType) (l u : Nat) (cs : List GateT) : Option Bool :=
  let nt := cs.countP (·.value)
  let nf := cs.countP (fun c => !c.value)
  match ty with
  | tVAR => none
  | tFALSE => some false
  | tTRUE => some true
  | tREF => some (decide (nt = 1))
  | tNOT => some (decide (nt = 0))
  | tEQUIV => some (!(decide (0 < nt) && decide (0 < nf)))
  | tOR => some (decide (0 < nt))
  | tAND => some (decide (nf = 0))
  | tODD => some (decide (nt % 2 = 1))
  | tEVEN => some (decide (nt % 2 = 0))
  | tITE =>
    match cs with
    | ci :: ct :: ce :: _ =>
      some (if ci.value then ct.value else ce.value)
    | _ => none
  | tTHRESHOLD => some (decide (l ≤ nt) && decide (nt ≤ u))
  | tATLEAST => some (decide (l ≤ nt))
  | _ => none

mutual

/-- `Gate::evaluate` (gate.cc:5073-5152): a determined gate is returned
unchanged (children not visited); otherwise all children are evaluated,
the gate's value is computed from them per type, and the gate becomes
determined. -/
def evaluate : GateT → Option GateT
  | .node ty d v l u ns cs =>
    if d then some (.node ty d v l u ns cs)
    else
      match evaluateList cs with
      | none => none
      | some cs' =>
        match evalValue ty l u cs' with
        | none => none
        | some v' => some (.node ty true v' l u ns cs')

/-- Evaluation of a child list, failing if any child fails. -/
def evaluateList : List GateT → Option (List GateT)
  | [] => some []
  | c :: cs =>
    match evaluate c, evaluateList cs with
    | some c', some cs' => some (c' :: cs')
    | _, _ => none

end

/-- `Gate::check_consistency` (gate.cc:5158-5271): an undetermined gate
passes; a determined gate's value must not contradict the determined
values of its children.  `none` models `internal_error` (note the
switch has no `tATLEAST` case) or a failing `assert`. -/
def checkConsistency (g : GateT) : Option Bool :=
  if ¬g.determined then some true
  else
    let cs := g.children
    let nt := cs.countP (fun c => c.determined && c.value)
    let nf := cs.countP (fun c => c.determined && !c.value)
    let nu := cs.countP (fun c => !c.determined)
    let n := nt + nf + nu
    match g.type with
    | tFALSE => some (g.value == false)
    | tTRUE => some (g.value == true)
    | tVAR => some true
    | tNOT =>
      if nt = 1 then some (g.value == false)
      else if nf = 1 then some (g.value == true)
      else some true
    | tREF =>
      if nt = 1 then some (g.value == true)
      else if nf = 1 then some (g.value == false)
      else some true
    | tEQUIV =>
      if g.value then some (!(decide (0 < nt) && decide (0 < nf)))
      else some (!(decide (nt = n) || decide (nf = n)))
    | tOR =>
      if g.value then some (!decide (nf = n))
      else some (!decide (0 < nt))
    | tAND =>
      if g.value then some (!decide (0 < nf))
      else some (!decide (nt = n))
    | tODD =>
      if nu = 0 then some (g.value == decide (nt % 2 = 1)) else some true
    | tEVEN =>
      if nu = 0 then some (g.value == decide (nt % 2 = 0)) else some true
    | tITE =>
      match cs with
      | ci :: ct :: ce :: _ =>
        if g.value then
          some (!((ci.determined && ci.value && ct.determined && !ct.value) ||
                  (ci.determined && !ci.value && ce.determined && !ce.value) ||
                  (ct.determined && !ct.value && ce.determined && !ce.value)))
        else
          some (!((ci.determined && ci.value && ct.determined && ct.value) ||
                  (ci.determined && !ci.value && ce.determined && ce.value) ||
                  (ct.determined && ct.value && ce.determined && ce.value)))
      | _ => none
    | tTHRESHOLD =>
      if g.tmin ≤ g.tmax ∧ g.tmax ≤ n then
        if g.value then
          some (!(decide (g.tmax < nt) || decide (n - nf < g.tmin)))
        else
          some (!(decide (g.tmin ≤ nt) && decide (n - nf ≤ g.tmax)))
      else none
    | _ => none

/-- Modelled from the spec: `BC::check_consistency` (its definition is
outside `src/`; per §4.9 it "verifies every determined gate's value
matches the evaluation of its children") — every gate of the store must
pass `Gate::check_consistency`. -/
def circuitCheckConsistency : List GateT → Option Bool
  | [] => some true
  | g :: gs =>
    match checkConsistency g, circuitCheckConsistency gs with
    | some b, some rest => some (b && rest)
    | _, _ => none

/-- The `c <name> <-> T/F` comment lines of one gate in the SAT
shortcut output (bc2cnf.cc:552-564). -/
def nameLines (g : GateT) : List String :=
  g.names.map (fun n => "c " ++ n ++ " <-> " ++ (if g.value then "T" else "F"))

/-- The satisfiable-exit path of `main` (bc2cnf.cc:498-576), reached
when the cone-of-influence pass marked zero relevant gates: assign
undetermined VARs to false, evaluate every remaining undetermined gate
(evaluation of a determined gate returns it unchanged), run the
consistency check (`internal_error` on failure), then print the named
gates' values as comments followed by the dummy satisfiable CNF.
Returns the final store and the output lines. -/
def satExit (gs : List GateT) : Option (List GateT × List String) :=
  let gs1 := gs.map assignVarsFalse
  match evaluateList gs1 with
  | none => none
  | some gs2 =>
    match circuitCheckConsistency gs2 with
    | some true =>
      some (gs2, "c The instance was satisfiable" ::
        (gs2.flatMap nameLines ++ ["p cnf 1 1", "1 0"]))
    | _ => none

/-- The per-type Boolean function of a gate, written from the spec's
description of gate semantics (§1, §4.9): OR is disjunction, AND
conjunction, NOT/REF act on the single child, EQUIV is "all children
equal", ODD/EVEN are parity, ITE selects, THRESHOLD and ATLEAST count.
Used to compare `Gate::evaluate` against the spec. -/
def specTypeSem (ty : GType) (l u : Nat) (vals : List Bool) : Option Bool :=
  match ty with
  | tFALSE => some false
  | tTRUE => some true
  | tREF => match vals with | [v] => some v | _ => none
  | tNOT => match vals with | [v] => some (!v) | _ => none
  | tOR => some (vals.any id)
  | tAND => some (vals.all id)
  | tEQUIV => some (vals.all id || vals.all (fun v => !v))
  | tODD => some (decide ((vals.countP id) % 2 = 1))
  | tEVEN => some (decide ((vals.countP id) % 2 = 0))
  | tITE => match vals with
            | [i, t, e] => some (if i then t else e)
            | _ => none
  | tTHRESHOLD => some (decide (l ≤ vals.countP id) && decide (vals.countP id ≤ u))
  | tATLEAST => some (decide (l ≤ vals.countP id))
  | _ => none

/-! ### The encoder pipeline (claim C3) -/

/-- The dummy UNSAT DIMACS output (bc2cnf.cc:588-591). -/
def unsatLines : List String :=
  ["c The instance was unsatisfiable", "p cnf 1 2", "1 0", "-1 0"]

/-- The boolean outcomes of the rewrite entry points `main` invokes
before any DIMACS output is produced (bc2cnf.cc:163-256): the two
constraint queues, simplification or sharing, CNF normalization, the
second simplification or sharing, and the number of gates the
cone-of-influence pass marked. -/
structure StageResults where
  forceTrueOk : Bool
  forceFalseOk : Bool
  simplify1Ok : Bool
  share1Ok : Bool
  normalizeOk : Bool
  simplify2Ok : Bool
  share2Ok : Bool
  nofRelevant : Nat
deriving DecidableEq, Repr

/-- The control flow of `main` after parsing (bc2cnf.cc:163-596):
each rewrite entry point returning `false` jumps to `unsat_exit`; a
cone of influence with zero relevant gates jumps to `sat_exit`; in all
cases the process exit code is 0.  `satOut` and `encodeOut` stand for
the output of the SAT shortcut and of the CNF encoder proper. -/
def mainPipeline (optSimplify : Bool) (s : StageResults)
    (satOut encodeOut : List String) : List String × Nat :=
  if !s.forceTrueOk then (unsatLines, 0)
  else if !s.forceFalseOk then (unsatLines, 0)
  else if optSimplify ∧ !s.simplify1Ok then (unsatLines, 0)
  else if ¬optSimplify ∧ !s.share1Ok then (unsatLines, 0)
  else if !s.normalizeOk then (unsatLines, 0)
  else if optSimplify ∧ !s.simplify2Ok then (unsatLines, 0)
  else if ¬optSimplify ∧ !s.share2Ok then (unsatLines, 0)
  else if s.nofRelevant = 0 then (satOut, 0)
  else (encodeOut, 0)

/-- Characterization of `comp` returning 0: either the very same gate,
or two gates of the same type agreeing on the data the comparison
consults — bounds for THRESHOLD/ATLEAST, the ordered child index
sequence for the structural types, nothing further for the constants —
while two distinct VAR gates never compare equal (their `idx` decides),
and unsupported types fail. -/
def compZeroSpec (a b : HGate) : Prop :=
  a = b ∨
    (a.type = b.type ∧
      (match a.type with
       | tFALSE => True
       | tTRUE => True
       | tVAR => False
       | tTHRESHOLD => a.tmin = b.tmin ∧ a.tmax = b.tmax ∧ a.childIdx = b.childIdx
       | tATLEAST => a.tmin = b.tmin ∧ a.childIdx = b.childIdx
       | tUNDEF => False
       | tDELETED => False
       | _ => a.childIdx = b.childIdx))

/-- The invariant `cnf_normalize` establishes on constant gates
(gate.cc:2427-2445): a FALSE gate is determined with value false, a TRUE
gate determined with value true. -/
def constGateInv (g : NGate) : Prop :=
  (g.type = tFALSE → g.determined = true ∧ g.value = false) ∧
  (g.type = tTRUE → g.determined = true ∧ g.value = true)

instance (g : NGate) : Decidable (constGateInv g) := by
  unfold constGateInv; infer_instance

/-- For a normalized gate, `cnf_count_clauses` agrees with the length of
the clause list `cnf_get_clauses` produces. -/
lemma count_eq_get_length (g : NGate) (nl : Bool) (cs : List (List Int))
    (hc : constGateInv g) (h : cnf_get_clauses g nl = some cs) :
    cnf_count_clauses g nl = some cs.length := by
  obtain ⟨ty, t, d, v, ch⟩ := g
  obtain ⟨hF, hT⟩ := hc
  cases ty
  case tFALSE =>
    obtain ⟨hd, hv⟩ := hF rfl
    simp only [cnf_get_clauses, cnf_count_clauses] at h ⊢
    simp_all
  case tTRUE =>
    obtain ⟨hd, hv⟩ := hT rfl
    simp only [cnf_get_clauses, cnf_count_clauses] at h ⊢
    simp_all
  case tVAR =>
    simp only [cnf_get_clauses, cnf_count_clauses] at h ⊢; simp_all
  case tREF =>
    simp only [cnf_get_clauses, cnf_count_clauses] at h ⊢
    rcases ch with _ | ⟨c1, _ | ⟨c2, ch⟩⟩ <;> split at h <;> simp_all <;>
      (try cases h) <;> rfl
  case tNOT =>
    simp only [cnf_get_clauses, cnf_count_clauses] at h ⊢
    rcases ch with _ | ⟨c1, _ | ⟨c2, ch⟩⟩ <;> simp_all <;>
      rcases nl with _ | _ <;> simp_all <;> (try cases h) <;> rfl
  case tOR =>
    simp only [cnf_get_clauses, cnf_count_clauses] at h ⊢
    cases h; simp
  case tAND =>
    simp only [cnf_get_clauses, cnf_count_clauses] at h ⊢
    cases h; simp
  case tEQUIV =>
    simp only [cnf_get_clauses, cnf_count_clauses] at h ⊢
    rcases ch with _ | ⟨c1, _ | ⟨c2, _ | ⟨c3, ch⟩⟩⟩ <;> simp_all <;>
      (try cases h) <;> rfl
  case tEVEN =>
    simp only [cnf_get_clauses, cnf_count_clauses] at h ⊢
    rcases ch with _ | ⟨c1, _ | ⟨c2, _ | ⟨c3, ch⟩⟩⟩ <;> simp_all <;>
      (try cases h) <;> rfl
  case tODD =>
    simp only [cnf_get_clauses, cnf_count_clauses] at h ⊢
    rcases ch with _ | ⟨c1, _ | ⟨c2, _ | ⟨c3, ch⟩⟩⟩ <;> simp_all <;>
      (try cases h) <;> rfl
  case tITE =>
    simp only [cnf_get_clauses, cnf_count_clauses] at h ⊢
    rcases ch with _ | ⟨c1, _ | ⟨c2, _ | ⟨c3, _ | ⟨c4, ch⟩⟩⟩⟩ <;> simp_all <;>
      (try cases h) <;> rfl
  case tTHRESHOLD =>
    simp only [cnf_get_clauses] at h; exact absurd h (by simp)
  case tATLEAST =>
    simp only [cnf_get_clauses] at h; exact absurd h (by simp)
  case tUNDEF =>
    simp only [cnf_get_clauses] at h; exact absurd h (by simp)
  case tDELETED =>
    simp only [cnf_get_clauses] at h; exact absurd h (by simp)

/-! ### Claim theorems -/

/-- C1: for a numbered OR gate with children `c₁…cₙ` the standard
emitter produces exactly the `n+1` clauses `(¬g ∨ c₁ ∨ … ∨ cₙ)` and,
for each `i`, `(g ∨ ¬cᵢ)` over the assigned DIMACS literals, and
`cnf_count_clauses` returns `n+1`; dually for an AND gate it produces
`(g ∨ ¬c₁ ∨ … ∨ ¬cₙ)` and, for each `i`, `(¬g ∨ cᵢ)`, and
`cnf_count_clauses` returns `n+1`. -/
theorem C1_or_and_translation (t : Int) (d v : Bool) (cs : List NChild)
    (nl : Bool) :
    cnf_get_clauses ⟨tOR, t, d, v, cs⟩ nl =
      some ((-t :: cs.map (childLit nl)) ::
        cs.map (fun c => [t, -(childLit nl c)])) ∧
    cnf_count_clauses ⟨tOR, t, d, v, cs⟩ nl = some (cs.length + 1) ∧
    cnf_get_clauses ⟨tAND, t, d, v, cs⟩ nl =
      some ((t :: cs.map (fun c => -(childLit nl c))) ::
        cs.map (fun c => [-t, childLit nl c])) ∧
    cnf_count_clauses ⟨tAND, t, d, v, cs⟩ nl = some (cs.length + 1) :=
  ⟨rfl, rfl, rfl, rfl⟩

/-- C5: the emitter's two passes agree — the clause count computed for
the DIMACS header equals the number of clause lines subsequently
written — and for every normalized gate `cnf_count_clauses` returns
exactly the number of clauses `cnf_get_clauses` produces. -/
theorem C5_count_matches_emission :
    (∀ (g : NGate) (nl : Bool) (cs : List (List Int)), constGateInv g →
       cnf_get_clauses g nl = some cs →
       cnf_count_clauses g nl = some cs.length) ∧
    (∀ (gs : List NGate) (nl : Bool) (lines : List (List Int)),
       writePass gs nl = some lines →
       countPass gs nl = some lines.length) := by
  constructor
  · exact fun g nl cs hc h => count_eq_get_length g nl cs hc h
  · intro gs nl
    induction gs with
    | nil => intro lines h; simp only [writePass] at h; cases h; rfl
    | cons g gs ih =>
      intro lines h
      simp only [writePass, countPass] at h ⊢
      by_cases ht : g.temp == -1
      · simp only [ht, if_true] at h ⊢; exact ih lines h
      · simp only [ht, if_false] at h ⊢
        cases hg : cnf_get_clauses g nl with
        | none => rw [hg] at h; cases h
        | some cs =>
          rw [hg] at h
          cases hr : writePass gs nl with
          | none => rw [hr] at h; cases h
          | some rest =>
            rw [hr] at h
            cases h
            rw [ih rest hr]
            simp [Nat.add_assoc]

/-- Witness for C5 at a concrete numbered circuit: a single OR gate over
two variables. -/
theorem C5_count_matches_emission_witness :
    countPass
      [⟨tVAR, 1, false, false, []⟩, ⟨tVAR, 2, false, false, []⟩,
       ⟨tOR, 3, true, true, [⟨tVAR, 1, 0⟩, ⟨tVAR, 2, 0⟩]⟩] true = some 4 := by
  have h := C5_count_matches_emission.2
    [⟨tVAR, 1, false, false, []⟩, ⟨tVAR, 2, false, false, []⟩,
     ⟨tOR, 3, true, true, [⟨tVAR, 1, 0⟩, ⟨tVAR, 2, 0⟩]⟩] true
    [[3, -2], [3, -1], [-3, 1, 2], [3]] (by decide)
  simpa using h

/-- C2: once a gate is determined with value `v`, none of the rewrite
entry points cited (the constant cases of `Gate::simplify`, the REF
case of `Gate::cnf_normalize`, and the merge step of `Gate::share`)
ever stores the value `¬v` — on the gate itself or on a child a value
is propagated to; a conflicting rewrite returns `false` (UNSAT) with
the state unchanged. -/
theorem C2_determined_never_flips :
    (∀ (cval : Bool) (g : RGate), g.determined = true →
       ((simplifyConstCase cval g).2.determined = true ∧
        (simplifyConstCase cval g).2.value = g.value) ∧
       ((simplifyConstCase cval g).1 = false →
        (simplifyConstCase cval g).2 = g)) ∧
    (∀ (g : RGate) (c : RChild) (ok : Bool) (g' : RGate) (c' : RChild),
       g.children = [c] → cnfNormalizeRef g = some (ok, g', c') →
       (g.determined = true → g'.determined = true ∧ g'.value = g.value) ∧
       (c.determined = true → c'.determined = true ∧ c'.value = c.value) ∧
       (ok = false → g' = g ∧ c' = c)) ∧
    (∀ (g ex : RGate) (ok : Bool) (g' ex' : RGate),
       shareMerge g ex = (ok, g', ex') →
       (g.determined = true → g'.determined = true ∧ g'.value = g.value) ∧
       (ex.determined = true → ex'.determined = true ∧ ex'.value = ex.value) ∧
       (ok = false → g' = g ∧ ex' = ex)) := by
  refine ⟨?_, ?_, ?_⟩
  · intro cval g hd
    by_cases hv : g.value = cval <;>
      simp [simplifyConstCase, hd, hv] <;> split <;> simp [hd, hv]
  · intro g c ok g' c' hch h
    simp only [cnfNormalizeRef, hch] at h
    split at h
    case isTrue hd =>
      split at h
      case isTrue hc =>
        simp only [Option.some.injEq, Prod.mk.injEq] at h
        obtain ⟨rfl, rfl, rfl⟩ := h
        exact ⟨fun _ => ⟨hd, rfl⟩, fun hcd => ⟨hcd, rfl⟩,
               fun _ => ⟨rfl, rfl⟩⟩
      case isFalse hc =>
        simp only [Option.some.injEq, Prod.mk.injEq] at h
        obtain ⟨rfl, rfl, rfl⟩ := h
        push_neg at hc
        exact ⟨fun _ => ⟨by simp [deleteGate, hd], by simp [deleteGate]⟩,
               fun hcd => ⟨rfl, hc hcd⟩,
               fun hok => absurd hok (by simp)⟩
    case isFalse hd =>
      simp only [Option.some.injEq, Prod.mk.injEq] at h
      obtain ⟨rfl, rfl, rfl⟩ := h
      exact ⟨fun hgd => absurd hgd hd, fun hcd => ⟨hcd, rfl⟩,
             fun hok => absurd hok (by simp)⟩
  · intro g ex ok g' ex' h
    simp only [shareMerge] at h
    split at h
    case isTrue hgd =>
      split at h
      case isTrue hed =>
        split at h
        case isTrue hv =>
          simp only [Prod.mk.injEq] at h
          obtain ⟨rfl, rfl, rfl⟩ := h
          exact ⟨fun _ => ⟨hgd, rfl⟩, fun _ => ⟨hed, rfl⟩,
                 fun _ => ⟨rfl, rfl⟩⟩
        case isFalse hv =>
          simp only [Prod.mk.injEq] at h
          obtain ⟨rfl, rfl, rfl⟩ := h
          exact ⟨fun _ => ⟨by simp [deleteGate, hgd], by simp [deleteGate]⟩,
                 fun _ => ⟨hed, rfl⟩, fun hok => absurd hok (by simp)⟩
      case isFalse hed =>
        simp only [Prod.mk.injEq] at h
        obtain ⟨rfl, rfl, rfl⟩ := h
        exact ⟨fun _ => ⟨by simp [deleteGate, hgd], by simp [deleteGate]⟩,
               fun hedt => absurd hedt hed, fun hok => absurd hok (by simp)⟩
    case isFalse hgd =>
      simp only [Prod.mk.injEq] at h
      obtain ⟨rfl, rfl, rfl⟩ := h
      exact ⟨fun hgdt => absurd hgdt hgd, fun hedt => ⟨hedt, rfl⟩,
             fun hok => absurd hok (by simp)⟩

/-- Witness for C2 at concrete states: a TRUE gate already determined
false (UNSAT, unchanged) and a share merge of two conflicting
determined gates (UNSAT, unchanged). -/
theorem C2_determined_never_flips_witness :
    ((simplifyConstCase true
        ⟨tTRUE, true, false, true, false, 0, 0, []⟩).1 = false →
     (simplifyConstCase true
        ⟨tTRUE, true, false, true, false, 0, 0, []⟩).2 =
       ⟨tTRUE, true, false, true, false, 0, 0, []⟩) ∧
    ((shareMerge ⟨tOR, true, true, true, false, 0, 0, []⟩
        ⟨tOR, true, false, true, false, 0, 0, []⟩).2.2.determined = true ∧
     (shareMerge ⟨tOR, true, true, true, false, 0, 0, []⟩
        ⟨tOR, true, false, true, false, 0, 0, []⟩).2.2.value = false) := by
  constructor
  · exact (C2_determined_never_flips.1 true
      ⟨tTRUE, true, false, true, false, 0, 0, []⟩ rfl).2
  · exact (C2_determined_never_flips.2.2
      ⟨tOR, true, true, true, false, 0, 0, []⟩
      ⟨tOR, true, false, true, false, 0, 0, []⟩
      _ _ _ rfl).2.1 rfl

/-- C3: whenever one of the rewrite entry points actually run by the
pipeline (constraint propagation, simplification or sharing, CNF
normalization) reports UNSAT, `main` short-circuits to the dummy UNSAT
DIMACS — the comment line, the header `p cnf 1 2`, and exactly the two
clauses `1 0` and `-1 0`, with no CNF clauses written before the
header — regardless of the outcomes of the later stages, and the exit
code is 0. -/
theorem C3_unsat_short_circuit (opt : Bool) (s : StageResults)
    (satOut encodeOut : List String)
    (h : (if opt then
            !s.forceTrueOk || !s.forceFalseOk || !s.simplify1Ok ||
            !s.normalizeOk || !s.simplify2Ok
          else
            !s.forceTrueOk || !s.forceFalseOk || !s.share1Ok ||
            !s.normalizeOk || !s.share2Ok) = true) :
    mainPipeline opt s satOut encodeOut =
      (["c The instance was unsatisfiable", "p cnf 1 2", "1 0", "-1 0"], 0) := by
  have : mainPipeline opt s satOut encodeOut = (unsatLines, 0) := by
    obtain ⟨ft, ff, s1, sh1, no, s2, sh2, nr⟩ := s
    cases opt <;> cases ft <;> cases ff <;> cases s1 <;> cases sh1 <;>
      cases no <;> cases s2 <;> cases sh2 <;>
      simp_all [mainPipeline]
  simpa [unsatLines] using this

/-- Witness for C3: the CNF normalizer reporting UNSAT with every other
stage succeeding. -/
theorem C3_unsat_short_circuit_witness :
    mainPipeline true ⟨true, true, true, true, false, true, true, 5⟩
      ["sat"] ["cnf"] =
      (["c The instance was unsatisfiable", "p cnf 1 2", "1 0", "-1 0"], 0) :=
  C3_unsat_short_circuit true ⟨true, true, true, true, false, true, true, 5⟩
    ["sat"] ["cnf"] (by decide)

/-- The ATLEAST child-removal loop keeps exactly the undetermined
children and subtracts the number of determined-true children from the
bound (saturating). -/
lemma atleastRemoveChildren_eq (cs : List RChild) (t : Nat) :
    atleastRemoveChildren cs t =
      (cs.filter (fun c => !c.determined),
       t - cs.countP (fun c => c.determined && c.value)) := by
  induction cs generalizing t with
  | nil => simp [atleastRemoveChildren]
  | cons c cs ih =>
    cases hd : c.determined
    · simp [atleastRemoveChildren, hd, ih, List.countP_cons, List.filter_cons]
    · cases hv : c.value
      · simp [atleastRemoveChildren, hd, hv, ih, List.countP_cons,
          List.filter_cons]
      · simp only [atleastRemoveChildren, hd, hv, ih, List.countP_cons,
          List.filter_cons]
        refine Prod.ext ?_ ?_ <;> simp [hd, hv] <;> omega

/-- C6 counterexample: an undetermined ATLEAST gate whose bound is 1
with two undetermined children left is *not* turned into an OR by the
simplifier — it stays an ATLEAST gate unchanged (the `L=1 ⇒ OR` rewrite
lives in `Gate::cnf_normalize`, gate.cc:2795-2801, not in
`Gate::simplify`). -/
theorem C6_atleast_counterexample :
    let g : RGate := ⟨tATLEAST, false, false, true, false, 1, 0,
      [⟨tVAR, false, false⟩, ⟨tVAR, false, false⟩]⟩
    (atleastRemoveChildren g.children g.tmin).2 = 1 ∧
    (simplifyAtleast g).1 = true ∧
    (simplifyAtleast g).2 = g ∧
    (simplifyAtleast g).2.type ≠ tOR := by decide

/-- C6 (amended): the simplifier's ATLEAST case removes determined
children while decrementing the bound `L` for each true child
(saturating at 0); then `L = 0` yields the constant TRUE, `L` larger
than the number of remaining children yields the constant FALSE, and
`L` equal to the number of remaining children yields an AND over them;
in every other case — including `L = 1` with several children left,
whose OR rewrite happens later in the CNF normalizer — the gate remains
an ATLEAST gate with the updated bound and children. -/
theorem C6_atleast_simplify_amended (g : RGate) (hty : g.type = tATLEAST)
    (hd : g.determined = false) :
    (atleastRemoveChildren g.children g.tmin =
      (g.children.filter (fun c => !c.determined),
       g.tmin - g.children.countP (fun c => c.determined && c.value))) ∧
    (let cs' := g.children.filter (fun c => !c.determined)
     let t' := g.tmin - g.children.countP (fun c => c.determined && c.value)
     simplifyAtleast g =
       if t' = 0 then
         (true, { g with type := tTRUE, determined := true, value := true,
                         children := [], tmin := t' })
       else if cs'.length < t' then
         (true, { g with type := tFALSE, determined := true, value := false,
                         children := [], tmin := t' })
       else if t' = cs'.length then
         (true, { g with type := tAND, tmin := 0, tmax := 0, children := cs' })
       else (true, { g with tmin := t', children := cs' })) := by
  refine ⟨atleastRemoveChildren_eq _ _, ?_⟩
  simp only [simplifyAtleast, atleastRemoveChildren_eq, hd]
  split
  · simp [transformIntoConstant, hd]
  · split
    · simp [transformIntoConstant, hd]
    · split <;> simp

/-- Witness for C6 (amended) at a concrete gate: ATLEAST with bound 2,
one determined-true child and one undetermined child, which collapses
to an AND over the single remaining child. -/
theorem C6_atleast_simplify_amended_witness :
    simplifyAtleast ⟨tATLEAST, false, false, true, false, 2, 0,
        [⟨tVAR, true, true⟩, ⟨tVAR, false, false⟩]⟩ =
      (true, ⟨tAND, false, false, true, false, 0, 0,
        [⟨tVAR, false, false⟩]⟩) := by
  have h := (C6_atleast_simplify_amended
    ⟨tATLEAST, false, false, true, false, 2, 0,
      [⟨tVAR, true, true⟩, ⟨tVAR, false, false⟩]⟩ rfl rfl).2
  simpa using h

/-- C7 counterexample: an undetermined ITE gate reached with positive
polarity propagates both polarities only to its if-child; its then- and
else-children receive only the incoming polarity
(gate.cc:5014-5023), contradicting the claim that every one of the
three children receives both polarities. -/
theorem C7_ite_counterexample :
    let g : PGate := ⟨tITE, false, false, false, false, 0, 0,
      [⟨false, false⟩, ⟨false, false⟩, ⟨false, false⟩]⟩
    mirCalls g true = some [(0, true), (0, false), (1, true), (2, true)] ∧
    (1, false) ∉ ((mirCalls g true).getD []) ∧
    (2, false) ∉ ((mirCalls g true).getD []) := by decide

/-- C7 (amended): in the polarity analyzer, an
undetermined-or-unjustified gate reached with polarity `p` (flags not
yet set) propagates: for ITE, both polarities to the if-child and only
`p` to the then- and else-children; for EQUIV, both polarities to every
child; for ODD and EVEN, both polarities to every child, except that
with exactly one undetermined child a single polarity — the incoming
polarity xored with the parity of the determined-true children — is
propagated to every child. -/
theorem C7_polarity_propagation_amended (g : PGate) (p : Bool)
    (hd : g.determined = false) (hpos : g.mir_pos = false)
    (hneg : g.mir_neg = false) :
    (∀ c1 c2 c3 rest, g.type = tITE → g.children = c1 :: c2 :: c3 :: rest →
       mirCalls g p = some [(0, p), (0, !p), (1, p), (2, p)]) ∧
    (g.type = tEQUIV →
       mirCalls g p = some ((List.range g.children.length).flatMap
         (fun i => [(i, p), (i, !p)]))) ∧
    (g.type = tODD →
       mirCalls g p =
         if (countChildInfo g.children).2.2 = 1 then
           some ((List.range g.children.length).map
             (fun i => (i, xor p ((countChildInfo g.children).1 % 2 = 1))))
         else some ((List.range g.children.length).flatMap
           (fun i => [(i, p), (i, !p)]))) ∧
    (g.type = tEVEN →
       mirCalls g p =
         if (countChildInfo g.children).2.2 = 1 then
           some ((List.range g.children.length).map
             (fun i => (i, xor p ((countChildInfo g.children).1 % 2 = 0))))
         else some ((List.range g.children.length).flatMap
           (fun i => [(i, p), (i, !p)]))) := by
  refine ⟨?_, ?_, ?_, ?_⟩
  · intro c1 c2 c3 rest hty hch
    simp [mirCalls, hd, hpos, hneg, hty, hch]
  · intro hty
    simp [mirCalls, hd, hpos, hneg, hty]
  · intro hty
    rcases hcc : countChildInfo g.children with ⟨nt, nf, nu⟩
    simp only [mirCalls, hd, hpos, hneg, hty, hcc]
    simp
  · intro hty
    rcases hcc : countChildInfo g.children with ⟨nt, nf, nu⟩
    simp only [mirCalls, hd, hpos, hneg, hty, hcc]
    simp

/-- Witness for C7 (amended): a binary EQUIV gate receives both
polarities on both children. -/
theorem C7_polarity_propagation_amended_witness :
    mirCalls ⟨tEQUIV, false, false, false, false, 0, 0,
        [⟨false, false⟩, ⟨false, false⟩]⟩ true =
      some [(0, true), (0, false), (1, true), (1, false)] := by
  have h := (C7_polarity_propagation_amended
    ⟨tEQUIV, false, false, false, false, 0, 0,
      [⟨false, false⟩, ⟨false, false⟩]⟩ true rfl rfl rfl).2.1 rfl
  simpa using h

/-- The child-comparison loop returns 0 exactly on equal index
sequences. -/
lemma compChildren_eq_zero_iff :
    ∀ as bs : List Nat, compChildren as bs = 0 ↔ as = bs := by
  intro as
  induction as with
  | nil => intro bs; cases bs <;> simp [compChildren]
  | cons a as ih =>
    intro bs
    cases bs with
    | nil => simp [compChildren]
    | cons b bs =>
      simp only [compChildren]
      rcases lt_trichotomy a b with hab | hab | hab
      · simp [hab, hab.ne, hab.not_lt]
      · subst hab; simp [ih]
      · simp [hab, hab.ne', hab.not_lt]

/-- The numeric type codes are injective. -/
lemma GType.code_inj : ∀ (x y : GType), x.code = y.code → x = y := by decide

/-- Full characterization of `Gate::comp` returning 0. -/
lemma comp_zero_iff (a b : HGate) : comp a b = some 0 ↔ compZeroSpec a b := by
  by_cases hab : a = b
  · cases hab; simp [comp, compZeroSpec]
  · have hne : (a = b) ↔ False := iff_false_intro hab
    simp only [comp, if_neg hab, compZeroSpec, hne, false_or]
    by_cases hlt : a.type.code < b.type.code
    · have hty : ¬a.type = b.type := fun he => absurd (he ▸ hlt) (lt_irrefl _)
      simp [hlt, hty]
    · by_cases hgt : b.type.code < a.type.code
      · have hty : ¬a.type = b.type := fun he => absurd (he ▸ hgt) (lt_irrefl _)
        simp [hlt, hgt, hty]
      · have hty : a.type = b.type :=
          GType.code_inj _ _
            (Nat.le_antisymm (Nat.not_lt.mp hgt) (Nat.not_lt.mp hlt))
        simp only [hlt, hgt, if_false, hty, true_iff, iff_true, true_and]
        rcases htb : b.type with _ | _ | _ | _ | _ | _ | _ | _ | _ | _ | _ | _ | _ | _ | _
        all_goals simp only [htb]
        -- tEQUIV
        · simp [compChildren_eq_zero_iff]
        -- tOR
        · simp [compChildren_eq_zero_iff]
        -- tAND
        · simp [compChildren_eq_zero_iff]
        -- tEVEN
        · simp [compChildren_eq_zero_iff]
        -- tODD
        · simp [compChildren_eq_zero_iff]
        -- tITE
        · simp [compChildren_eq_zero_iff]
        -- tNOT
        · simp [compChildren_eq_zero_iff]
        -- tTRUE
        · simp
        -- tFALSE
        · simp
        -- tVAR
        · constructor
          · intro hc
            rcases Nat.lt_or_ge a.idx b.idx with hi | hi
            · rw [if_pos hi] at hc
              exact absurd (Option.some.inj hc) (by decide)
            · rw [if_neg (Nat.not_lt.mpr hi)] at hc
              exact absurd (Option.some.inj hc) (by decide)
          · intro hfalse
            exact hfalse.elim
        -- tTHRESHOLD
        · rcases lt_trichotomy a.tmin b.tmin with h1 | h1 | h1
          · simp [h1, h1.ne]
          · rcases lt_trichotomy a.tmax b.tmax with h2 | h2 | h2
            · simp [h1, h2, h2.ne, lt_irrefl]
            · simp [h1, h2, lt_irrefl, compChildren_eq_zero_iff]
            · simp [h1, h2, h2.ne', h2.not_lt, lt_irrefl]
          · simp [h1, h1.ne', h1.not_lt]
        -- tATLEAST
        · rcases lt_trichotomy a.tmin b.tmin with h1 | h1 | h1
          · simp [h1, h1.ne]
          · simp [h1, lt_irrefl, compChildren_eq_zero_iff]
          · simp [h1, h1.ne', h1.not_lt]
        -- tREF
        · simp [compChildren_eq_zero_iff]
        -- tUNDEF
        · simp
        -- tDELETED
        · simp

/-- C8 counterexample: two distinct VAR gates carrying the same name
(and agreeing on bounds and children) do *not* compare equal —
`Gate::comp` orders VAR gates by their store index and never consults
names, so `comp` returns 0 for VAR gates only on the gate itself. -/
theorem C8_comp_var_counterexample :
    let a : HGate := ⟨tVAR, 0, some "x", 0, 0, []⟩
    let b : HGate := ⟨tVAR, 1, some "x", 0, 0, []⟩
    a.type = b.type ∧ a.name = b.name ∧ a.tmin = b.tmin ∧ a.tmax = b.tmax ∧
    a.childIdx = b.childIdx ∧ comp a b ≠ some 0 ∧ comp b a ≠ some 0 := by
  decide

/-- C8 (amended): `Gate::comp` returns 0 exactly when the gates are the
very same gate, or have the same type together with the same bounds
(`tmin`/`tmax` for THRESHOLD, `tmin` for ATLEAST) and the same ordered
sequence of child index values — except that two distinct VAR gates
never compare equal (ordered by index; names are not compared). -/
theorem C8_comp_zero_amended (a b : HGate) :
    comp a b = some 0 ↔ compZeroSpec a b :=
  comp_zero_iff a b

/-- C10: structurally equal gates hash equally — `comp` returning 0
forces equality of everything `hash_value` consumes (type, bounds,
first name, child index sequence), given the data-model invariant that
constant gates are childless. -/
theorem C10_comp_zero_implies_hash_eq (a b : HGate)
    (ha : a.type = tFALSE ∨ a.type = tTRUE → a.childIdx = [])
    (hb : b.type = tFALSE ∨ b.type = tTRUE → b.childIdx = [])
    (h : comp a b = some 0) : hash_value a = hash_value b := by
  rcases (comp_zero_iff a b).mp h with rfl | ⟨hty, hrest⟩
  · rfl
  · obtain ⟨ta, ia, na, la, ua, ca⟩ := a
    obtain ⟨tb, ib, nb, lb, ub, cb⟩ := b
    simp only at hty
    subst hty
    cases ta <;> simp_all [hash_value]

/-- Witness for C10: a VAR gate compared with itself. -/
theorem C10_comp_zero_implies_hash_eq_witness :
    comp ⟨tVAR, 0, some "x", 0, 0, []⟩ ⟨tVAR, 0, some "x", 0, 0, []⟩ =
      some 0 ∧
    hash_value ⟨tVAR, 0, some "x", 0, 0, []⟩ =
      hash_value ⟨tVAR, 0, some "x", 0, 0, []⟩ :=
  ⟨by decide,
   C10_comp_zero_implies_hash_eq _ _ (by decide) (by decide) (by decide)⟩

/-- C9: the NOT-less discipline — after variable numbering no NOT gate
carries a DIMACS variable (its `temp` is `-1`); a NOT gate contributes
zero translation clauses; the CNF normalizer never lets a NOT gate with
a NOT child survive as a NOT (it is collapsed to the grandchild, or
becomes a constant when determined); and a NOT child is encoded as the
negative literal over its grandchild's variable. -/
theorem C9_notless_discipline :
    (∀ (gs : List NGate) (n : Int) (gs' : List NGate),
       renumber true gs n = some gs' →
       ∀ g' ∈ gs', g'.type = tNOT → g'.temp = -1) ∧
    (∀ (t : Int) (v : Bool) (c : NChild), c.ctype ≠ tNOT →
       cnf_get_clauses ⟨tNOT, t, false, v, [c]⟩ true = some []) ∧
    (∀ (g : RGate) (c : RChild) (ok : Bool) (g' : RGate) (c' : RChild),
       g.children = [c] → cnfNormalizeNot g = some (ok, g', c') →
       ok = true → (c.ctype = tNOT ∨ g.determined = true) →
       g'.type ≠ tNOT) ∧
    (∀ c : NChild, c.ctype = tNOT → childLit true c = -c.gtemp) := by
  refine ⟨?_, ?_, ?_, ?_⟩
  · intro gs
    induction gs with
    | nil =>
      intro n gs' h
      simp only [renumber] at h
      cases h
      intro g' hg'
      cases hg'
    | cons g gs ih =>
      intro n gs' h
      simp only [renumber] at h
      split at h
      case isTrue hskip =>
        cases hr : renumber true gs n with
        | none => rw [hr] at h; cases h
        | some gs'' =>
          rw [hr] at h
          cases h
          intro g' hg' hty
          rcases List.mem_cons.mp hg' with rfl | hmem
          · exact eq_of_beq hskip
          · exact ih n gs'' hr g' hmem hty
      case isFalse hskip =>
        split at h
        case isTrue hnot =>
          split at h
          case isTrue => cases h
          case isFalse =>
            cases hr : renumber true gs n with
            | none => rw [hr] at h; cases h
            | some gs'' =>
              rw [hr] at h
              cases h
              intro g' hg' hty
              rcases List.mem_cons.mp hg' with rfl | hmem
              · rfl
              · exact ih n gs'' hr g' hmem hty
        case isFalse hnot =>
          cases hr : renumber true gs (n + 1) with
          | none => rw [hr] at h; cases h
          | some gs'' =>
            rw [hr] at h
            cases h
            intro g' hg' hty
            rcases List.mem_cons.mp hg' with rfl | hmem
            · exact absurd (by simpa using hty) hnot
            · exact ih (n + 1) gs'' hr g' hmem hty
  · intro t v c hc
    simp [cnf_get_clauses, hc]
  · intro g c ok g' c' hch h hok hcase
    simp only [cnfNormalizeNot, hch] at h
    split at h
    case isTrue hd =>
      split at h
      case isTrue =>
        simp only [Option.some.injEq, Prod.mk.injEq] at h
        obtain ⟨rfl, _, _⟩ := h
        cases hok
      case isFalse =>
        simp only [Option.some.injEq, Prod.mk.injEq] at h
        obtain ⟨rfl, rfl, rfl⟩ := h
        simp only [transformIntoConstant, hd, if_true]
        split <;> simp
    case isFalse hd =>
      split at h
      case isTrue hcnot =>
        simp only [Option.some.injEq, Prod.mk.injEq] at h
        obtain ⟨rfl, rfl, rfl⟩ := h
        simp [deleteGate]
      case isFalse hcnot =>
        simp only [Option.some.injEq, Prod.mk.injEq] at h
        obtain ⟨rfl, rfl, rfl⟩ := h
        rcases hcase with hcn | hgd
        · exact absurd hcn hcnot
        · exact absurd hgd (by simpa using hd)
  · intro c hc
    simp [childLit, hc]

/-- Witness for C9 at concrete inputs: a numbered NOT gate over
variable 3 emits no clauses, and as a child it is encoded as the
literal `-3`; the numbering loop strips the variable of a NOT gate. -/
theorem C9_notless_discipline_witness :
    cnf_get_clauses ⟨tNOT, 7, false, false, [⟨tVAR, 3, 0⟩]⟩ true =
      some [] ∧
    childLit true ⟨tNOT, 5, 3⟩ = -3 ∧
    (∀ g' ∈ (renumber true
        [⟨tVAR, 5, false, false, []⟩,
         ⟨tNOT, 6, false, false, [⟨tVAR, 1, 0⟩]⟩] 0).getD [],
      g'.type = tNOT → g'.temp = -1) := by
  refine ⟨C9_notless_discipline.2.1 7 false ⟨tVAR, 3, 0⟩ (by decide),
          by simpa using C9_notless_discipline.2.2.2 ⟨tNOT, 5, 3⟩ rfl,
          ?_⟩
  intro g' hg' hty
  exact C9_notless_discipline.1
    [⟨tVAR, 5, false, false, []⟩, ⟨tNOT, 6, false, false, [⟨tVAR, 1, 0⟩]⟩]
    0 _ rfl g' hg' hty

/-- A successfully evaluated gate is determined. -/
lemma evaluate_determined (g g' : GateT) (h : evaluate g = some g') :
    g'.determined = true := by
  obtain ⟨ty, d, v, l, u, ns, cs⟩ := g
  simp only [evaluate] at h
  split at h
  case isTrue hd =>
    cases h
    exact hd
  case isFalse hd =>
    split at h
    · cases h
    · split at h
      · cases h
      · cases h; rfl

/-- `evaluateList` acts pointwise as `evaluate`. -/
lemma evaluateList_get (l l' : List GateT) (h : evaluateList l = some l') :
    ∀ i : Nat, (l.get? i).bind evaluate = l'.get? i := by
  induction l generalizing l' with
  | nil =>
    simp only [evaluateList] at h
    cases h
    intro i
    simp
  | cons c cs ih =>
    simp only [evaluateList] at h
    cases hc : evaluate c with
    | none => rw [hc] at h; cases h
    | some c' =>
      rw [hc] at h
      cases hr : evaluateList cs with
      | none => rw [hr] at h; cases h
      | some cs' =>
        rw [hr] at h
        cases h
        intro i
        cases i with
        | zero => simp [hc]
        | succ j => simpa using ih cs' hr j

/-- Every member of a successfully evaluated list is determined. -/
lemma evaluateList_determined (l l' : List GateT)
    (h : evaluateList l = some l') : ∀ g' ∈ l', g'.determined = true := by
  induction l generalizing l' with
  | nil =>
    simp only [evaluateList] at h
    cases h
    intro g' hg'
    cases hg'
  | cons c cs ih =>
    simp only [evaluateList] at h
    cases hc : evaluate c with
    | none => rw [hc] at h; cases h
    | some c' =>
      rw [hc] at h
      cases hr : evaluateList cs with
      | none => rw [hr] at h; cases h
      | some cs' =>
        rw [hr] at h
        cases h
        intro g' hg'
        rcases List.mem_cons.mp hg' with rfl | hmem
        · exact evaluate_determined c g' hc
        · exact ih cs' hr g' hmem

/-- Evaluation preserves the number of children. -/
lemma evaluateList_length (l l' : List GateT)
    (h : evaluateList l = some l') : l'.length = l.length := by
  induction l generalizing l' with
  | nil =>
    simp only [evaluateList] at h
    cases h
    rfl
  | cons c cs ih =>
    simp only [evaluateList] at h
    cases hc : evaluate c with
    | none => rw [hc] at h; cases h
    | some c' =>
      rw [hc] at h
      cases hr : evaluateList cs with
      | none => rw [hr] at h; cases h
      | some cs' =>
        rw [hr] at h
        cases h
        simp [ih cs' hr]

lemma countP_map_value (cs : List GateT) :
    (cs.map GateT.value).countP id = cs.countP (fun c => c.value) := by
  induction cs with
  | nil => rfl
  | cons c cs ih => simp [List.countP_cons, ih]

lemma any_id_map_value (cs : List GateT) :
    (cs.map GateT.value).any id =
      decide (0 < cs.countP (fun c => c.value)) := by
  induction cs with
  | nil => rfl
  | cons c cs ih =>
    cases hc : c.value <;> simp [List.countP_cons, hc, ih]

lemma all_id_map_value (cs : List GateT) :
    (cs.map GateT.value).all id =
      decide (cs.countP (fun c => !c.value) = 0) := by
  induction cs with
  | nil => rfl
  | cons c cs ih =>
    cases hc : c.value <;> simp [List.countP_cons, hc, ih]

lemma all_not_map_value (cs : List GateT) :
    (cs.map GateT.value).all (fun v => !v) =
      decide (cs.countP (fun c => c.value) = 0) := by
  induction cs with
  | nil => rfl
  | cons c cs ih =>
    cases hc : c.value <;> simp [List.countP_cons, hc, ih]

/-- The value `Gate::evaluate` computes agrees with the spec's per-type
Boolean function, under the arity preconditions of §3. -/
lemma evalValue_spec (ty : GType) (l u : Nat) (cs : List GateT) (v : Bool)
    (h1 : ty = tREF ∨ ty = tNOT → cs.length = 1)
    (h3 : ty = tITE → cs.length = 3)
    (hv : evalValue ty l u cs = some v) :
    specTypeSem ty l u (cs.map GateT.value) = some v := by
  cases ty
  case tVAR => cases hv
  case tFALSE =>
    simp only [evalValue] at hv
    cases hv
    rfl
  case tTRUE =>
    simp only [evalValue] at hv
    cases hv
    rfl
  case tREF =>
    rcases List.length_eq_one.mp (h1 (Or.inl rfl)) with ⟨c, rfl⟩
    simp only [evalValue, List.countP_cons, List.countP_nil] at hv
    cases hv
    cases hc : c.value <;> simp [specTypeSem, hc]
  case tNOT =>
    rcases List.length_eq_one.mp (h1 (Or.inr rfl)) with ⟨c, rfl⟩
    simp only [evalValue, List.countP_cons, List.countP_nil] at hv
    cases hv
    cases hc : c.value <;> simp [specTypeSem, hc]
  case tEQUIV =>
    simp only [evalValue] at hv
    cases hv
    simp only [specTypeSem, all_id_map_value, all_not_map_value,
      Option.some.injEq]
    by_cases hnt : cs.countP (fun c => c.value) = 0 <;>
      by_cases hnf : cs.countP (fun c => !c.value) = 0 <;>
      simp [hnt, hnf, Nat.pos_of_ne_zero]
  case tOR =>
    simp only [evalValue] at hv
    cases hv
    simp [specTypeSem, any_id_map_value]
  case tAND =>
    simp only [evalValue] at hv
    cases hv
    simp only [specTypeSem, all_id_map_value, Option.some.injEq]
  case tODD =>
    simp only [evalValue] at hv
    cases hv
    simp [specTypeSem, countP_map_value]
  case tEVEN =>
    simp only [evalValue] at hv
    cases hv
    simp [specTypeSem, countP_map_value]
  case tITE =>
    have hlen := h3 rfl
    rcases cs with _ | ⟨ci, _ | ⟨ct, _ | ⟨ce, _ | ⟨cx, cs⟩⟩⟩⟩ <;>
      simp at hlen
    simp only [evalValue] at hv
    cases hv
    rfl
  case tTHRESHOLD =>
    simp only [evalValue] at hv
    cases hv
    simp [specTypeSem, countP_map_value]
  case tATLEAST =>
    simp only [evalValue] at hv
    cases hv
    simp [specTypeSem, countP_map_value]
  case tUNDEF => cases hv
  case tDELETED => cases hv

/-- C4: when the cone-of-influence pass marks zero relevant gates, the
SAT-shortcut path assigns every undetermined VAR gate the value false,
evaluates every remaining undetermined gate from its children according
to its type's Boolean function (setting `determined`), runs the
`check_consistency` post-condition, and writes the dummy satisfiable
DIMACS `p cnf 1 1` with single clause `1 0`, preceded by the truth
values of named gates in comments. -/
theorem C4_sat_shortcut :
    (∀ (gs gs2 : List GateT) (lines : List String),
       satExit gs = some (gs2, lines) →
       lines = "c The instance was satisfiable" ::
         (gs2.flatMap nameLines ++ ["p cnf 1 1", "1 0"]) ∧
       circuitCheckConsistency gs2 = some true ∧
       (∀ g' ∈ gs2, g'.determined = true) ∧
       (∀ i : Nat, ((gs.map assignVarsFalse).get? i).bind evaluate =
         gs2.get? i)) ∧
    (∀ (ty : GType) (d v : Bool) (l u : Nat) (ns : List String)
       (cs : List GateT), ty = tVAR → d = false →
       evaluate (assignVarsFalse (.node ty d v l u ns cs)) =
         some (.node tVAR true false l u ns (assignVarsFalseList cs))) ∧
    (∀ (g g' : GateT), g.determined = false → evaluate g = some g' →
       (g.type = tREF ∨ g.type = tNOT → g.children.length = 1) →
       (g.type = tITE → g.children.length = 3) →
       evaluateList g.children = some g'.children ∧
       specTypeSem g.type g.tmin g.tmax (g'.children.map GateT.value) =
         some g'.value) := by
  refine ⟨?_, ?_, ?_⟩
  · intro gs gs2 lines h
    simp only [satExit] at h
    split at h
    · cases h
    · next l2 he =>
      split at h
      · next hc =>
        simp only [Option.some.injEq, Prod.mk.injEq] at h
        obtain ⟨rfl, rfl⟩ := h
        exact ⟨rfl, hc, evaluateList_determined _ _ he,
               evaluateList_get _ _ he⟩
      · next => cases h
  · intro ty d v l u ns cs hty hd
    subst hty; subst hd
    simp [assignVarsFalse, evaluate]
  · intro g g' hd h h1 h3
    obtain ⟨ty, d, v, l, u, ns, cs⟩ := g
    simp only [GateT.determined] at hd
    subst hd
    simp only [evaluate] at h
    split at h
    · next hfalse => exact absurd hfalse (by simp)
    · split at h
      · cases h
      · next cs' he =>
        split at h
        · cases h
        · next v' hv =>
          cases h
          have hlen : cs'.length = cs.length := evaluateList_length cs cs' he
          refine ⟨he, evalValue_spec ty l u cs' v' ?_ ?_ hv⟩
          · intro hcase
            rw [hlen]
            exact h1 hcase
          · intro hcase
            rw [hlen]
            exact h3 hcase

/-- Witness for C4 at a concrete one-gate circuit: a single named
undetermined VAR, which the shortcut assigns false and reports in the
comment line, followed by the dummy satisfiable CNF. -/
theorem C4_sat_shortcut_witness :
    (∀ g' ∈ ([GateT.node tVAR true false 0 0 ["x"] []] : List GateT),
       g'.determined = true) ∧
    evaluate (assignVarsFalse (GateT.node tVAR false false 0 0 ["x"] [])) =
      some (GateT.node tVAR true false 0 0 ["x"] []) := by
  constructor
  · exact fun g' hg' => (C4_sat_shortcut.1
      [GateT.node tVAR false false 0 0 ["x"] []]
      [GateT.node tVAR true false 0 0 ["x"] []]
      ["c The instance was satisfiable", "c x <-> F", "p cnf 1 1", "1 0"]
      rfl).2.2.1 g' hg'
  · have h := C4_sat_shortcut.2.1 tVAR false false 0 0 ["x"] [] rfl rfl
    simpa using h

end BCSat
